import Mathlib

/-!
Verification of the tile-field model of the `TiledSwirl` canvas animation
(`src/src/javascript/sketch.js`).

The development shallowly embeds the per-tile computation of
`TiledSwirl.draw`, the geometry recomputation of `TiledSwirl.canvasResize`,
the color-table initialisation of `TiledSwirl.colorsInit`, and the helpers
`Utils.random` / `Utils.smoothStep`.

Numbers are modelled as follows: the per-frame wave math (sin, atan2, sqrt)
lives over `ℝ`; the geometry and color-table bookkeeping, which only uses
field operations, `min`, `floor` and `ceil`, lives over `ℚ` so that concrete
scenarios evaluate by `decide`/`norm_num`; one dedicated model `JSNum` adds
the IEEE infinities needed to describe what the code does on a division by
zero (JavaScript `x / 0`).
-/

/-- Embedding of `Utils.smoothStep(x, edge1, edge2)`:
`x = Math.max(0, Math.min(1, (x - edge1) / (edge2 - edge1))); return x*x*(3-2*x)`. -/
def smoothStep {α : Type} [LinearOrderedField α] (x edge1 edge2 : α) : α :=
  let t := max 0 (min 1 ((x - edge1) / (edge2 - edge1)))
  t * t * (3 - 2 * t)

/-- Configuration fields of the `TiledSwirl` class (`density`, `edge`, `ripple`,
`speed`, `tightness`, `palette`). -/
structure Config where
  density : ℚ
  edge : ℚ
  ripple : ℚ
  speed : ℚ
  tightness : ℚ
  palette : List String
deriving DecidableEq

/-- Default field initialisers of the `TiledSwirl` class. -/
def defaultConfig : Config :=
  { density := 32
    edge := 1 / 10
    ripple := 5
    speed := 3 / 100
    tightness := 3
    palette := ["", "hsl(343, 90%, 50%)", "hsl(43, 90%, 50%)", "hsl(223, 90%, 50%)"] }

/-- Per-frame drawing environment of `TiledSwirl.draw`: the tile edge length
`this.size`, the field center `(centerX, centerY)` computed from the canvas,
and `this.distanceMax`. -/
structure DrawEnv where
  size : ℝ
  centerX : ℝ
  centerY : ℝ
  distanceMax : ℝ

/-- Embedding of JavaScript `Math.atan2(y, x)` as the argument of the complex
number `x + y*i`; both lie in `(-π, π]` and both send `(0, 0)` to `0`. -/
noncomputable def atan2 (y x : ℝ) : ℝ :=
  Complex.arg ⟨x, y⟩

/-- Horizontal offset `x + this.size / 2 - centerX` of the center of tile
column `i` from the field center (`draw`, the `angleX`/`legHorizontal` base). -/
noncomputable def tileDx (env : DrawEnv) (i : ℕ) : ℝ :=
  (i : ℝ) * env.size + env.size / 2 - env.centerX

/-- Vertical offset `y + this.size / 2 - centerY` of the center of tile row
`j` from the field center (`draw`, the `angleY`/`legVertical` base). -/
noncomputable def tileDy (env : DrawEnv) (j : ℕ) : ℝ :=
  (j : ℝ) * env.size + env.size / 2 - env.centerY

/-- Embedding of `dist = Math.sqrt(legHorizontal + legVertical)` in `draw`. -/
noncomputable def tileDist (env : DrawEnv) (i j : ℕ) : ℝ :=
  Real.sqrt (tileDx env i ^ 2 + tileDy env j ^ 2)

/-- Embedding of `distNormalized = dist / this.distanceMax` in `draw`. -/
noncomputable def tileDistNorm (env : DrawEnv) (i j : ℕ) : ℝ :=
  tileDist env i j / env.distanceMax

/-- Embedding of `angle = Math.atan2(angleY, angleX)` in `draw`. -/
noncomputable def tileAngle (env : DrawEnv) (i j : ℕ) : ℝ :=
  atan2 (tileDy env j) (tileDx env i)

/-- Embedding of `wave = Math.sin(distNormalized * rippleFactor + angle - this.time)`
with `rippleFactor = this.tightness * (1 + distNormalized * this.ripple)`,
as a function of the normalized distance and the angle. -/
noncomputable def waveFromAngle (cfg : Config) (time distNorm angle : ℝ) : ℝ :=
  Real.sin (distNorm * ((cfg.tightness : ℝ) * (1 + distNorm * (cfg.ripple : ℝ))) + angle - time)

/-- Embedding of the tail of the per-tile computation in `draw`
(`waveNormalized`, `edge1`, `edge2`, `waveEdged`, `tileSize`), as a function
of the normalized distance and the angle. -/
noncomputable def renderSizeFromAngle (env : DrawEnv) (cfg : Config) (time distNorm angle : ℝ) : ℝ :=
  let wave := waveFromAngle cfg time distNorm angle
  let waveNormalized := (wave + 1) / 2
  let edge1 := 1 / 2 - (cfg.edge : ℝ)
  let edge2 := 1 / 2 + (cfg.edge : ℝ)
  let waveEdged := smoothStep waveNormalized edge1 edge2
  env.size * 0.2 + env.size * 0.8 * waveEdged

/-- Embedding of the full per-tile size computation of `TiledSwirl.draw` for the
tile at grid coordinate `(i, j)`. -/
noncomputable def tileRenderSize (env : DrawEnv) (cfg : Config) (time : ℝ) (i j : ℕ) : ℝ :=
  renderSizeFromAngle env cfg time (tileDistNorm env i j) (tileAngle env i j)

/-- Shared helper: the clamped cubic Hermite output of `smoothStep` always lies
in `[0, 1]`, whatever the input and the thresholds. -/
theorem smoothStep_mem_Icc (x edge1 edge2 : ℝ) : smoothStep x edge1 edge2 ∈ Set.Icc (0 : ℝ) 1 := by
  have h0 : 0 ≤ max 0 (min 1 ((x - edge1) / (edge2 - edge1))) := le_max_left 0 _
  have h1 : max 0 (min 1 ((x - edge1) / (edge2 - edge1))) ≤ 1 :=
    max_le (by norm_num) (min_le_left 1 _)
  simp only [smoothStep, Set.mem_Icc]
  set t := max 0 (min 1 ((x - edge1) / (edge2 - edge1))) with ht
  constructor
  · nlinarith
  · nlinarith [sq_nonneg (1 - t)]

/-- Shared helper: for a nonnegative tile edge, every render size produced by
`renderSizeFromAngle` lies in `[0.2 * size, 1.0 * size]`. -/
theorem renderSizeFromAngle_mem (env : DrawEnv) (cfg : Config) (time distNorm angle : ℝ)
    (hsize : 0 ≤ env.size) :
    env.size * 0.2 ≤ renderSizeFromAngle env cfg time distNorm angle ∧
      renderSizeFromAngle env cfg time distNorm angle ≤ env.size := by
  unfold renderSizeFromAngle
  obtain ⟨hlo, hhi⟩ := smoothStep_mem_Icc ((waveFromAngle cfg time distNorm angle + 1) / 2)
    (1 / 2 - (cfg.edge : ℝ)) (1 / 2 + (cfg.edge : ℝ))
  constructor
  · nlinarith
  · nlinarith

/-- Claim C1: for every grid coordinate `(i, j)` in bounds (`i < cols`,
`j < rows`), every time, and every valid configuration (`edge ∈ (0, 0.5)`,
nonnegative tile edge), the tile render size computed in `draw` lies in the
closed interval `[0.2 * tileEdge, 1.0 * tileEdge]`. -/
theorem tileRenderSize_bounds (env : DrawEnv) (cfg : Config) (time : ℝ)
    (cols rows i j : ℕ) (hi : i < cols) (hj : j < rows)
    (hedge0 : 0 < cfg.edge) (hedge1 : cfg.edge < 1 / 2) (hsize : 0 ≤ env.size) :
    env.size * 0.2 ≤ tileRenderSize env cfg time i j ∧
      tileRenderSize env cfg time i j ≤ 1.0 * env.size := by
  obtain ⟨hlo, hhi⟩ := renderSizeFromAngle_mem env cfg time
    (tileDistNorm env i j) (tileAngle env i j) hsize
  unfold tileRenderSize
  have hone : (1.0 : ℝ) * env.size = env.size := by norm_num
  exact ⟨hlo, by rw [hone]; exact hhi⟩

/-- Witness for C1 at a concrete in-bounds tile of a concrete environment and
the default configuration. -/
theorem tileRenderSize_bounds_witness :
    ((0 : ℕ) < 4 ∧ (0 : ℕ) < 3 ∧ (0 : ℚ) < defaultConfig.edge ∧ defaultConfig.edge < 1 / 2 ∧
      (0 : ℝ) ≤ (DrawEnv.mk 10 20 15 25).size) ∧
    ((DrawEnv.mk 10 20 15 25).size * 0.2 ≤
        tileRenderSize (DrawEnv.mk 10 20 15 25) defaultConfig 0 0 0 ∧
      tileRenderSize (DrawEnv.mk 10 20 15 25) defaultConfig 0 0 0 ≤
        1.0 * (DrawEnv.mk 10 20 15 25).size) :=
  ⟨⟨by norm_num, by norm_num, by norm_num [defaultConfig], by norm_num [defaultConfig],
      by norm_num⟩,
    tileRenderSize_bounds (DrawEnv.mk 10 20 15 25) defaultConfig 0 4 3 0 0
      (by norm_num) (by norm_num) (by norm_num [defaultConfig]) (by norm_num [defaultConfig])
      (by norm_num)⟩

/-- Shared helper: a tile whose center coincides with the field center has
normalized distance `0`. -/
theorem tileDistNorm_center (env : DrawEnv) (i j : ℕ)
    (hdx : tileDx env i = 0) (hdy : tileDy env j = 0) : tileDistNorm env i j = 0 := by
  unfold tileDistNorm tileDist
  rw [hdx, hdy]
  norm_num

/-- Shared helper: a tile whose center coincides with the field center has
angle `atan2 0 0 = 0`. -/
theorem tileAngle_center (env : DrawEnv) (i j : ℕ)
    (hdx : tileDx env i = 0) (hdy : tileDy env j = 0) : tileAngle env i j = 0 := by
  unfold tileAngle atan2
  rw [hdx, hdy]
  have h : (⟨0, 0⟩ : ℂ) = 0 := Complex.ext (by simp) (by simp)
  rw [h, Complex.arg_zero]

/-- Shared helper: at normalized distance `0` and angle `0` the wave value is
`sin (-time)`. -/
theorem waveFromAngle_center (cfg : Config) (time : ℝ) :
    waveFromAngle cfg time 0 0 = Real.sin (-time) := by
  unfold waveFromAngle
  norm_num

/-- Claim C6: with the default configuration at `time = 0`, a tile whose center
coincides exactly with the field center (so `dist = 0` and `atan2 0 0 = 0`)
evaluates `wave = sin 0 = 0`, sharpened value `1/2`, and render size
`0.6 * tileEdge`. -/
theorem center_tile_default_render (env : DrawEnv) (i j : ℕ)
    (hdx : tileDx env i = 0) (hdy : tileDy env j = 0) :
    waveFromAngle defaultConfig 0 (tileDistNorm env i j) (tileAngle env i j) = 0 ∧
      smoothStep ((waveFromAngle defaultConfig 0 (tileDistNorm env i j) (tileAngle env i j) + 1) / 2)
        (1 / 2 - (defaultConfig.edge : ℝ)) (1 / 2 + (defaultConfig.edge : ℝ)) = 1 / 2 ∧
      tileRenderSize env defaultConfig 0 i j = 0.6 * env.size := by
  have hdn : tileDistNorm env i j = 0 := tileDistNorm_center env i j hdx hdy
  have hang : tileAngle env i j = 0 := tileAngle_center env i j hdx hdy
  have hw : waveFromAngle defaultConfig 0 (tileDistNorm env i j) (tileAngle env i j) = 0 := by
    rw [hdn, hang, waveFromAngle_center]
    simp
  refine ⟨hw, ?_, ?_⟩
  · rw [hw]
    norm_num [smoothStep, defaultConfig]
  · unfold tileRenderSize renderSizeFromAngle
    rw [hw]
    norm_num [smoothStep, defaultConfig]
    ring

/-- Witness for C6: a concrete environment whose tile `(0, 0)` sits exactly at
the field center. -/
theorem center_tile_default_render_witness :
    (tileDx (DrawEnv.mk 1 (1 / 2) (1 / 2) 1) 0 = 0 ∧
      tileDy (DrawEnv.mk 1 (1 / 2) (1 / 2) 1) 0 = 0) ∧
    (waveFromAngle defaultConfig 0
        (tileDistNorm (DrawEnv.mk 1 (1 / 2) (1 / 2) 1) 0 0)
        (tileAngle (DrawEnv.mk 1 (1 / 2) (1 / 2) 1) 0 0) = 0 ∧
      smoothStep ((waveFromAngle defaultConfig 0
          (tileDistNorm (DrawEnv.mk 1 (1 / 2) (1 / 2) 1) 0 0)
          (tileAngle (DrawEnv.mk 1 (1 / 2) (1 / 2) 1) 0 0) + 1) / 2)
        (1 / 2 - (defaultConfig.edge : ℝ)) (1 / 2 + (defaultConfig.edge : ℝ)) = 1 / 2 ∧
      tileRenderSize (DrawEnv.mk 1 (1 / 2) (1 / 2) 1) defaultConfig 0 0 0 =
        0.6 * (DrawEnv.mk 1 (1 / 2) (1 / 2) 1).size) :=
  ⟨⟨by norm_num [tileDx], by norm_num [tileDy]⟩,
    center_tile_default_render (DrawEnv.mk 1 (1 / 2) (1 / 2) 1) 0 0
      (by norm_num [tileDx]) (by norm_num [tileDy])⟩

/-- Concrete drawing environment whose tile `(0, 0)` is centered exactly on the
field center: tile edge `1`, center `(1/2, 1/2)`, maximum distance `1`. -/
noncomputable def centerEnv : DrawEnv :=
  DrawEnv.mk 1 (1 / 2) (1 / 2) 1

/-- Shared helper: `smoothStep` clamps to `0` whenever the scaled offset is
nonpositive. -/
theorem smoothStep_eq_zero {x edge1 edge2 : ℝ} (h : (x - edge1) / (edge2 - edge1) ≤ 0) :
    smoothStep x edge1 edge2 = 0 := by
  have hmax : max 0 (min 1 ((x - edge1) / (edge2 - edge1))) = 0 :=
    max_eq_left (le_trans (min_le_right _ _) h)
  simp only [smoothStep, hmax]
  ring

/-- Shared helper: tile `(0, 0)` of `centerEnv` sits at the field center. -/
theorem centerEnv_dx : tileDx centerEnv 0 = 0 := by
  norm_num [tileDx, centerEnv]

/-- Shared helper: tile `(0, 0)` of `centerEnv` sits at the field center. -/
theorem centerEnv_dy : tileDy centerEnv 0 = 0 := by
  norm_num [tileDy, centerEnv]

/-- Shared helper: basic bounds on `√3`. -/
theorem sqrt_three_bounds : (1 : ℝ) < Real.sqrt 3 ∧ Real.sqrt 3 < 2 := by
  have hsq : Real.sqrt 3 ^ 2 = 3 := Real.sq_sqrt (by norm_num)
  have hnn : (0 : ℝ) ≤ Real.sqrt 3 := Real.sqrt_nonneg 3
  constructor
  · nlinarith
  · nlinarith

/-- Counterexample to claim C7 as stated: at the center tile of `centerEnv`
with the default configuration, time `π/6` and positive speed `π/6`, the sine
is not at a stationary point (its derivative `cos` is nonzero) and the wave
value really advances, yet the render sizes at `time` and `time + speed`
coincide, because `smoothStep` clamps both wave values to the same floor. -/
theorem wave_advance_cex :
    (0 : ℝ) < Real.pi / 6 ∧
    Real.cos (tileDistNorm centerEnv 0 0 *
        ((defaultConfig.tightness : ℝ) *
          (1 + tileDistNorm centerEnv 0 0 * (defaultConfig.ripple : ℝ))) +
        tileAngle centerEnv 0 0 - Real.pi / 6) ≠ 0 ∧
    waveFromAngle defaultConfig (Real.pi / 6) (tileDistNorm centerEnv 0 0)
        (tileAngle centerEnv 0 0) ≠
      waveFromAngle defaultConfig (Real.pi / 6 + Real.pi / 6) (tileDistNorm centerEnv 0 0)
        (tileAngle centerEnv 0 0) ∧
    tileRenderSize centerEnv defaultConfig (Real.pi / 6) 0 0 =
      tileRenderSize centerEnv defaultConfig (Real.pi / 6 + Real.pi / 6) 0 0 := by
  have hdn : tileDistNorm centerEnv 0 0 = 0 :=
    tileDistNorm_center centerEnv 0 0 centerEnv_dx centerEnv_dy
  have hang : tileAngle centerEnv 0 0 = 0 :=
    tileAngle_center centerEnv 0 0 centerEnv_dx centerEnv_dy
  obtain ⟨hs1, hs2⟩ := sqrt_three_bounds
  have hw1 : waveFromAngle defaultConfig (Real.pi / 6) (tileDistNorm centerEnv 0 0)
      (tileAngle centerEnv 0 0) = -(1 / 2) := by
    rw [hdn, hang, waveFromAngle_center, Real.sin_neg, Real.sin_pi_div_six]
  have hw2 : waveFromAngle defaultConfig (Real.pi / 6 + Real.pi / 6) (tileDistNorm centerEnv 0 0)
      (tileAngle centerEnv 0 0) = -(Real.sqrt 3 / 2) := by
    rw [hdn, hang, waveFromAngle_center, Real.sin_neg]
    have h3 : Real.pi / 6 + Real.pi / 6 = Real.pi / 3 := by ring
    rw [h3, Real.sin_pi_div_three]
  refine ⟨by positivity, ?_, ?_, ?_⟩
  · rw [hdn, hang]
    have harg : (0 : ℝ) * ((defaultConfig.tightness : ℝ) *
        (1 + 0 * (defaultConfig.ripple : ℝ))) + 0 - Real.pi / 6 = -(Real.pi / 6) := by ring
    rw [harg, Real.cos_neg, Real.cos_pi_div_six]
    positivity
  · rw [hw1, hw2]
    intro h
    nlinarith
  · unfold tileRenderSize
    simp only [renderSizeFromAngle]
    rw [hw1, hw2]
    have he : (defaultConfig.edge : ℝ) = 1 / 10 := by norm_num [defaultConfig]
    rw [he]
    have hz1 : smoothStep ((-(1 / 2) + 1) / 2) (1 / 2 - (1 / 10 : ℝ)) (1 / 2 + 1 / 10) = 0 :=
      smoothStep_eq_zero (by norm_num)
    have hz2 : smoothStep ((-(Real.sqrt 3 / 2) + 1) / 2) (1 / 2 - (1 / 10 : ℝ))
        (1 / 2 + 1 / 10) = 0 := by
      apply smoothStep_eq_zero
      apply div_nonpos_of_nonpos_of_nonneg
      · nlinarith
      · norm_num
    rw [hz1, hz2]

/-- Claim C7 amended: the render size at `time` and `time + speed` differ
exactly when the clamped `smoothStep` outputs differ; the clamp can absorb an
advance of the raw sine, so a changing `sin` alone does not force a changing
size, but a changing sharpened value does (for a positive tile edge). -/
theorem renderSize_advances (env : DrawEnv) (cfg : Config) (time speed : ℝ) (i j : ℕ)
    (hsize : 0 < env.size)
    (hdiff : smoothStep ((waveFromAngle cfg time (tileDistNorm env i j)
          (tileAngle env i j) + 1) / 2)
        (1 / 2 - (cfg.edge : ℝ)) (1 / 2 + (cfg.edge : ℝ)) ≠
      smoothStep ((waveFromAngle cfg (time + speed) (tileDistNorm env i j)
          (tileAngle env i j) + 1) / 2)
        (1 / 2 - (cfg.edge : ℝ)) (1 / 2 + (cfg.edge : ℝ))) :
    tileRenderSize env cfg time i j ≠ tileRenderSize env cfg (time + speed) i j := by
  intro h
  apply hdiff
  unfold tileRenderSize renderSizeFromAngle at h
  simp only [] at h
  have h2 : env.size * 0.8 *
      smoothStep ((waveFromAngle cfg time (tileDistNorm env i j) (tileAngle env i j) + 1) / 2)
        (1 / 2 - (cfg.edge : ℝ)) (1 / 2 + (cfg.edge : ℝ)) =
      env.size * 0.8 *
      smoothStep ((waveFromAngle cfg (time + speed) (tileDistNorm env i j)
          (tileAngle env i j) + 1) / 2)
        (1 / 2 - (cfg.edge : ℝ)) (1 / 2 + (cfg.edge : ℝ)) := by linarith
  have hne : env.size * 0.8 ≠ 0 := by positivity
  exact mul_left_cancel₀ hne h2

/-- Witness for the amended C7: at the center tile, time `0` and speed `π/6`,
the sharpened values differ (`1/2` vs `0`), so the render sizes differ. -/
theorem renderSize_advances_witness :
    ((0 : ℝ) < centerEnv.size ∧
      smoothStep ((waveFromAngle defaultConfig 0 (tileDistNorm centerEnv 0 0)
            (tileAngle centerEnv 0 0) + 1) / 2)
          (1 / 2 - (defaultConfig.edge : ℝ)) (1 / 2 + (defaultConfig.edge : ℝ)) ≠
        smoothStep ((waveFromAngle defaultConfig (0 + Real.pi / 6) (tileDistNorm centerEnv 0 0)
            (tileAngle centerEnv 0 0) + 1) / 2)
          (1 / 2 - (defaultConfig.edge : ℝ)) (1 / 2 + (defaultConfig.edge : ℝ))) ∧
    tileRenderSize centerEnv defaultConfig 0 0 0 ≠
      tileRenderSize centerEnv defaultConfig (0 + Real.pi / 6) 0 0 := by
  have h1 : (0 : ℝ) < centerEnv.size := by norm_num [centerEnv]
  have hdn : tileDistNorm centerEnv 0 0 = 0 :=
    tileDistNorm_center centerEnv 0 0 centerEnv_dx centerEnv_dy
  have hang : tileAngle centerEnv 0 0 = 0 :=
    tileAngle_center centerEnv 0 0 centerEnv_dx centerEnv_dy
  have h2 : smoothStep ((waveFromAngle defaultConfig 0 (tileDistNorm centerEnv 0 0)
        (tileAngle centerEnv 0 0) + 1) / 2)
      (1 / 2 - (defaultConfig.edge : ℝ)) (1 / 2 + (defaultConfig.edge : ℝ)) ≠
      smoothStep ((waveFromAngle defaultConfig (0 + Real.pi / 6) (tileDistNorm centerEnv 0 0)
        (tileAngle centerEnv 0 0) + 1) / 2)
      (1 / 2 - (defaultConfig.edge : ℝ)) (1 / 2 + (defaultConfig.edge : ℝ)) := by
    rw [hdn, hang, waveFromAngle_center, waveFromAngle_center]
    have hz : Real.sin (-(0 : ℝ)) = 0 := by
      rw [neg_zero, Real.sin_zero]
    have hs : Real.sin (-(0 + Real.pi / 6)) = -(1 / 2) := by
      rw [zero_add, Real.sin_neg, Real.sin_pi_div_six]
    rw [hz, hs]
    norm_num [smoothStep, defaultConfig]
  exact ⟨⟨h1, h2⟩, renderSize_advances centerEnv defaultConfig 0 (Real.pi / 6) 0 0 h1 h2⟩

/-- Configuration equal to the defaults except `edge = 0.5`, the threshold the
spec declares invalid. -/
def halfEdgeConfig : Config :=
  { defaultConfig with edge := 1 / 2 }

/-- Counterexample to claim C4 as stated: with `edgeThreshold = 0.5` the
difference `edge2 - edge1` equals `2 * 0.5 = 1`, which is not `≤ 0`, and the
draw computation proceeds with no rejection, producing the perfectly ordinary
render size `0.6 * tileEdge` at the center tile at time `0`. -/
theorem edge_half_cex :
    ¬((1 / 2 + (halfEdgeConfig.edge : ℝ)) - (1 / 2 - (halfEdgeConfig.edge : ℝ)) ≤ 0) ∧
    tileRenderSize centerEnv halfEdgeConfig 0 0 0 = 0.6 * centerEnv.size := by
  constructor
  · norm_num [halfEdgeConfig, defaultConfig]
  · have hdn : tileDistNorm centerEnv 0 0 = 0 :=
      tileDistNorm_center centerEnv 0 0 centerEnv_dx centerEnv_dy
    have hang : tileAngle centerEnv 0 0 = 0 :=
      tileAngle_center centerEnv 0 0 centerEnv_dx centerEnv_dy
    unfold tileRenderSize
    rw [hdn, hang]
    simp only [renderSizeFromAngle]
    rw [waveFromAngle_center]
    have hz : Real.sin (-(0 : ℝ)) = 0 := by rw [neg_zero, Real.sin_zero]
    rw [hz]
    norm_num [smoothStep, halfEdgeConfig, defaultConfig, centerEnv]

/-- Claim C4 amended: for `edgeThreshold ≥ 0.5` the difference `edge2 - edge1`
equals `2 * edgeThreshold ≥ 1`, strictly positive (no division by zero, no
sign flip); the code performs no configuration-time rejection, and the clamp
inside `smoothStep` keeps every render size within `[0.2, 1.0] * tileEdge`. -/
theorem edge_half_no_reject (env : DrawEnv) (cfg : Config) (time : ℝ) (i j : ℕ)
    (hedge : 1 / 2 ≤ cfg.edge) (hsize : 0 ≤ env.size) :
    (1 / 2 + (cfg.edge : ℝ)) - (1 / 2 - (cfg.edge : ℝ)) = 2 * (cfg.edge : ℝ) ∧
    (0 : ℝ) < (1 / 2 + (cfg.edge : ℝ)) - (1 / 2 - (cfg.edge : ℝ)) ∧
    env.size * 0.2 ≤ tileRenderSize env cfg time i j ∧
      tileRenderSize env cfg time i j ≤ env.size := by
  have hcast : (1 / 2 : ℝ) ≤ (cfg.edge : ℝ) := by
    have h := (Rat.cast_le (K := ℝ)).mpr hedge
    push_cast at h
    exact h
  obtain ⟨hlo, hhi⟩ := renderSizeFromAngle_mem env cfg time
    (tileDistNorm env i j) (tileAngle env i j) hsize
  exact ⟨by ring, by linarith, hlo, hhi⟩

/-- Witness for the amended C4 at the concrete configuration `edge = 0.5` and
the center environment. -/
theorem edge_half_no_reject_witness :
    ((1 / 2 : ℚ) ≤ halfEdgeConfig.edge ∧ (0 : ℝ) ≤ centerEnv.size) ∧
    ((1 / 2 + (halfEdgeConfig.edge : ℝ)) - (1 / 2 - (halfEdgeConfig.edge : ℝ)) =
        2 * (halfEdgeConfig.edge : ℝ) ∧
      (0 : ℝ) < (1 / 2 + (halfEdgeConfig.edge : ℝ)) - (1 / 2 - (halfEdgeConfig.edge : ℝ)) ∧
      centerEnv.size * 0.2 ≤ tileRenderSize centerEnv halfEdgeConfig 0 0 0 ∧
        tileRenderSize centerEnv halfEdgeConfig 0 0 0 ≤ centerEnv.size) := by
  have h1 : (1 / 2 : ℚ) ≤ halfEdgeConfig.edge := by norm_num [halfEdgeConfig, defaultConfig]
  have h2 : (0 : ℝ) ≤ centerEnv.size := by norm_num [centerEnv]
  exact ⟨⟨h1, h2⟩, edge_half_no_reject centerEnv halfEdgeConfig 0 0 0 h1 h2⟩

/-- Shared helper: shifting the argument of a nonzero complex number to its
negation changes any sine of a shifted sum exactly as adding `π` does. -/
theorem sin_arg_neg_add (z : ℂ) (hz : z ≠ 0) (c : ℝ) :
    Real.sin (Complex.arg (-z) + c) = Real.sin (Complex.arg z + Real.pi + c) := by
  have hnz : -z ≠ 0 := neg_ne_zero.mpr hz
  have habs : Complex.abs (-z) = Complex.abs z := Complex.abs.map_neg z
  have h2 : Complex.arg z + Real.pi + c = Complex.arg z + c + Real.pi := by ring
  rw [Real.sin_add (Complex.arg (-z)) c, Complex.sin_arg, Complex.cos_arg hnz,
    Complex.neg_im, Complex.neg_re, habs, h2, Real.sin_add_pi,
    Real.sin_add, Complex.sin_arg, Complex.cos_arg hz]
  ring

/-- Claim C8: on a perfectly centered, square, even-density grid, the
diagonally opposite tile `(cols-1-i, rows-1-j)` renders exactly the size
obtained by substituting `angle + π` for `angle` in the wave formula, with the
normalized distance and all other inputs unchanged. -/
theorem opposite_tile_symmetry (env : DrawEnv) (cfg : Config) (time : ℝ)
    (cols rows i j : ℕ) (heven : 2 ∣ cols) (hsq : rows = cols)
    (hcx : env.centerX = (cols : ℝ) * env.size / 2)
    (hcy : env.centerY = (rows : ℝ) * env.size / 2)
    (hsize : env.size ≠ 0) (hi : i < cols) (hj : j < rows) :
    tileRenderSize env cfg time (cols - 1 - i) (rows - 1 - j) =
      renderSizeFromAngle env cfg time (tileDistNorm env i j)
        (tileAngle env i j + Real.pi) := by
  have hci : ((cols - 1 - i : ℕ) : ℝ) = (cols : ℝ) - 1 - (i : ℝ) := by
    have h1 : cols - 1 - i = cols - (1 + i) := by omega
    rw [h1, Nat.cast_sub (by omega)]
    push_cast
    ring
  have hcj : ((rows - 1 - j : ℕ) : ℝ) = (rows : ℝ) - 1 - (j : ℝ) := by
    have h1 : rows - 1 - j = rows - (1 + j) := by omega
    rw [h1, Nat.cast_sub (by omega)]
    push_cast
    ring
  have hdx : tileDx env (cols - 1 - i) = -(tileDx env i) := by
    unfold tileDx
    rw [hci, hcx]
    ring
  have hdy : tileDy env (rows - 1 - j) = -(tileDy env j) := by
    unfold tileDy
    rw [hcj, hcy]
    ring
  have hdist : tileDist env (cols - 1 - i) (rows - 1 - j) = tileDist env i j := by
    unfold tileDist
    rw [hdx, hdy]
    congr 1
    ring
  have hdn : tileDistNorm env (cols - 1 - i) (rows - 1 - j) = tileDistNorm env i j := by
    unfold tileDistNorm
    rw [hdist]
  have hodd : (2 * i + 1 : ℕ) ≠ cols := by
    obtain ⟨k, hk⟩ := heven
    omega
  have hdx0 : tileDx env i ≠ 0 := by
    unfold tileDx
    rw [hcx]
    intro h
    have h2 : env.size * ((2 * (i : ℝ) + 1) - (cols : ℝ)) = 0 := by linear_combination 2 * h
    rcases mul_eq_zero.mp h2 with h3 | h3
    · exact hsize h3
    · apply hodd
      have h4 : ((2 * i + 1 : ℕ) : ℝ) = (cols : ℝ) := by push_cast; linarith
      exact_mod_cast h4
  have hz : (⟨tileDx env i, tileDy env j⟩ : ℂ) ≠ 0 := by
    intro h
    apply hdx0
    have := congrArg Complex.re h
    simpa using this
  have hneg : (⟨-(tileDx env i), -(tileDy env j)⟩ : ℂ) =
      -(⟨tileDx env i, tileDy env j⟩ : ℂ) :=
    Complex.ext (by simp) (by simp)
  have hang : tileAngle env (cols - 1 - i) (rows - 1 - j) =
      Complex.arg (-(⟨tileDx env i, tileDy env j⟩ : ℂ)) := by
    unfold tileAngle atan2
    rw [hdx, hdy, hneg]
  have hangz : tileAngle env i j = Complex.arg (⟨tileDx env i, tileDy env j⟩ : ℂ) := rfl
  have hwave : waveFromAngle cfg time (tileDistNorm env i j)
      (Complex.arg (-(⟨tileDx env i, tileDy env j⟩ : ℂ))) =
      waveFromAngle cfg time (tileDistNorm env i j)
        (Complex.arg (⟨tileDx env i, tileDy env j⟩ : ℂ) + Real.pi) := by
    unfold waveFromAngle
    have e1 : tileDistNorm env i j * ((cfg.tightness : ℝ) *
        (1 + tileDistNorm env i j * (cfg.ripple : ℝ))) +
        Complex.arg (-(⟨tileDx env i, tileDy env j⟩ : ℂ)) - time =
        Complex.arg (-(⟨tileDx env i, tileDy env j⟩ : ℂ)) +
        (tileDistNorm env i j * ((cfg.tightness : ℝ) *
          (1 + tileDistNorm env i j * (cfg.ripple : ℝ))) - time) := by ring
    have e2 : tileDistNorm env i j * ((cfg.tightness : ℝ) *
        (1 + tileDistNorm env i j * (cfg.ripple : ℝ))) +
        (Complex.arg (⟨tileDx env i, tileDy env j⟩ : ℂ) + Real.pi) - time =
        Complex.arg (⟨tileDx env i, tileDy env j⟩ : ℂ) + Real.pi +
        (tileDistNorm env i j * ((cfg.tightness : ℝ) *
          (1 + tileDistNorm env i j * (cfg.ripple : ℝ))) - time) := by ring
    rw [e1, e2, sin_arg_neg_add _ hz]
  unfold tileRenderSize
  rw [hdn, hang, hangz]
  simp only [renderSizeFromAngle]
  rw [hwave]

/-- Witness for C8 on the concrete centered 2×2 grid with tile edge 1. -/
theorem opposite_tile_symmetry_witness :
    ((2 ∣ 2) ∧ (2 : ℕ) = 2 ∧ (DrawEnv.mk 1 1 1 1).centerX = ((2 : ℕ) : ℝ) * 1 / 2 ∧
      (DrawEnv.mk 1 1 1 1).centerY = ((2 : ℕ) : ℝ) * 1 / 2 ∧
      (DrawEnv.mk 1 1 1 1).size ≠ 0 ∧ (0 : ℕ) < 2 ∧ (0 : ℕ) < 2) ∧
    tileRenderSize (DrawEnv.mk 1 1 1 1) defaultConfig 0 (2 - 1 - 0) (2 - 1 - 0) =
      renderSizeFromAngle (DrawEnv.mk 1 1 1 1) defaultConfig 0
        (tileDistNorm (DrawEnv.mk 1 1 1 1) 0 0)
        (tileAngle (DrawEnv.mk 1 1 1 1) 0 0 + Real.pi) := by
  refine ⟨⟨⟨1, rfl⟩, rfl, by norm_num, by norm_num, by norm_num, by norm_num, by norm_num⟩, ?_⟩
  exact opposite_tile_symmetry (DrawEnv.mk 1 1 1 1) defaultConfig 0 2 2 0 0
    ⟨1, rfl⟩ rfl (by norm_num) (by norm_num) (by norm_num) (by norm_num) (by norm_num)

/-- Embedding of `Utils.random()`: a `Uint32` drawn from the crypto source
(modelled as an arbitrary natural, reduced mod `2^32`) divided by `2^32`. -/
def jsRandom (u : ℕ) : ℚ :=
  ((u % 2 ^ 32 : ℕ) : ℚ) / 2 ^ 32

/-- Embedding of `index = Math.floor(Utils.random() * this.palette.length)` in
`colorsInit`. -/
def randomIndex (u len : ℕ) : ℤ :=
  ⌊jsRandom u * len⌋

/-- Embedding of the double loop of `TiledSwirl.colorsInit`: one palette entry
per cell, drawn from the random stream `rnd` in loop order (`i` outer, `j`
inner); an out-of-range palette access (JavaScript `undefined`) is modelled by
the falsy default `""`. -/
def colorsInit (palette : List String) (cols rows : ℕ) (rnd : ℕ → ℕ) : List (List String) :=
  (List.range cols).map fun i =>
    (List.range rows).map fun j =>
      palette.getD (randomIndex (rnd (i * rows + j)) palette.length).toNat ""

/-- Mutable instance fields of the `TiledSwirl` class: configuration, canvas
dimensions, derived geometry (`size`, `rows`, `cols`, `distanceMax` kept as its
square so the state stays rational), the clock, the theme flag and the color
table. -/
structure SwirlState where
  density : ℚ
  edge : ℚ
  ripple : ℚ
  speed : ℚ
  tightness : ℚ
  palette : List String
  canvasW : ℚ
  canvasH : ℚ
  size : ℚ
  rows : ℤ
  cols : ℤ
  time : ℚ
  distanceMaxSq : ℚ
  isDark : Bool
  colors : List (List String)
deriving DecidableEq

/-- Embedding of `TiledSwirl.canvasResize` for viewport `w × h` (CSS pixels)
and device pixel ratio `ratio`: sets the canvas to raw device pixels, then
recomputes `size`, `rows`, `cols` and the maximum distance. -/
def canvasResize (w h ratio : ℚ) (s : SwirlState) : SwirlState :=
  let canvasW := w * ratio
  let canvasH := h * ratio
  let size := min canvasW canvasH / s.density / ratio
  { s with
    canvasW := canvasW
    canvasH := canvasH
    size := size
    rows := ⌈canvasH / size / ratio⌉
    cols := ⌈canvasW / size / ratio⌉
    distanceMaxSq := (canvasW / 2 / ratio) ^ 2 + (canvasH / 2 / ratio) ^ 2 }

/-- Embedding of `TiledSwirl.checkDarkTheme`: copy the media-query flag. -/
def checkDarkTheme (dark : Bool) (s : SwirlState) : SwirlState :=
  { s with isDark := dark }

/-- Embedding of the `colorsInit` call as a state update: rebuild `this.colors`
for the current `cols × rows` grid. -/
def colorsInitState (rnd : ℕ → ℕ) (s : SwirlState) : SwirlState :=
  { s with colors := colorsInit s.palette s.cols.toNat s.rows.toNat rnd }

/-- Embedding of the `TiledSwirl` constructor body: field initialisers, then
`canvasResize()`, `checkDarkTheme()`, `colorsInit()` in that order. -/
def initState (cfg : Config) (w h ratio : ℚ) (dark : Bool) (rnd : ℕ → ℕ) : SwirlState :=
  colorsInitState rnd (checkDarkTheme dark (canvasResize w h ratio
    { density := cfg.density
      edge := cfg.edge
      ripple := cfg.ripple
      speed := cfg.speed
      tightness := cfg.tightness
      palette := cfg.palette
      canvasW := 0
      canvasH := 0
      size := 0
      rows := 0
      cols := 0
      time := 0
      distanceMaxSq := 0
      isDark := false
      colors := [] }))

/-- Resize events as wired in the constructor: each event invokes exactly
`canvasResize` (and nothing else — in particular not `colorsInit`). -/
def resizeSeq (events : List (ℚ × ℚ × ℚ)) (s : SwirlState) : SwirlState :=
  events.foldl (fun st ev => canvasResize ev.1 ev.2.1 ev.2.2 st) s

/-- Embedding of `centerX = (this.canvas.width / ratio) / 2` in `draw`. -/
def centerXOf (s : SwirlState) (ratio : ℚ) : ℚ :=
  s.canvasW / ratio / 2

/-- Embedding of `centerY = (this.canvas.height / ratio) / 2` in `draw`. -/
def centerYOf (s : SwirlState) (ratio : ℚ) : ℚ :=
  s.canvasH / ratio / 2

/-- Value of `this.distanceMax` carried by a state (the state stores its
square, which is rational). -/
noncomputable def stateDistanceMax (s : SwirlState) : ℝ :=
  Real.sqrt ((s.distanceMaxSq : ℚ) : ℝ)

/-- Claim C9: `canvasResize` mutates only the geometry fields (canvas
dimensions, `size`, `rows`, `cols`, maximum distance) and leaves the clock,
the color table, the theme flag and every configuration field unchanged. -/
theorem canvasResize_frame (w h ratio : ℚ) (s : SwirlState) :
    (canvasResize w h ratio s).time = s.time ∧
    (canvasResize w h ratio s).colors = s.colors ∧
    (canvasResize w h ratio s).isDark = s.isDark ∧
    (canvasResize w h ratio s).density = s.density ∧
    (canvasResize w h ratio s).edge = s.edge ∧
    (canvasResize w h ratio s).ripple = s.ripple ∧
    (canvasResize w h ratio s).speed = s.speed ∧
    (canvasResize w h ratio s).tightness = s.tightness ∧
    (canvasResize w h ratio s).palette = s.palette :=
  ⟨rfl, rfl, rfl, rfl, rfl, rfl, rfl, rfl, rfl⟩

/-- Claim C2 amended: resize events never touch the ColorTable at all — after
any sequence of resize events the `colors` field is exactly what it was before
(nothing is dropped when the grid shrinks, and no fresh colors are drawn when
it grows back; re-exposed cells keep their original entries). -/
theorem resizeSeq_preserves_colors (events : List (ℚ × ℚ × ℚ)) (s : SwirlState) :
    (resizeSeq events s).colors = s.colors := by
  induction events generalizing s with
  | nil => rfl
  | cons e rest ih =>
    have h : resizeSeq (e :: rest) s = resizeSeq rest (canvasResize e.1 e.2.1 e.2.2 s) := rfl
    rw [h, ih]
    rfl

/-- Configuration with `density = 8`, used to build a concrete non-square grid
whose column count changes across resizes. -/
def densityEightConfig : Config :=
  { defaultConfig with density := 8 }

/-- Counterexample to claim C2 as stated: starting from a `10 × 8` grid
(density 8, viewport 100×80), shrinking the viewport to 80×80 yields an
`8 × 8` grid but the color table still has its 10 original columns (nothing is
dropped), and growing back to 100×80 leaves the table bit-identical to the
initial one (no freshly drawn colors for the re-exposed columns). -/
theorem resize_colortable_cex :
    (initState densityEightConfig 100 80 1 false (fun _ => 0)).cols = 10 ∧
    (initState densityEightConfig 100 80 1 false (fun _ => 0)).rows = 8 ∧
    (canvasResize 80 80 1 (initState densityEightConfig 100 80 1 false (fun _ => 0))).cols = 8 ∧
    (canvasResize 80 80 1
        (initState densityEightConfig 100 80 1 false (fun _ => 0))).colors.length = 10 ∧
    (canvasResize 100 80 1 (canvasResize 80 80 1
        (initState densityEightConfig 100 80 1 false (fun _ => 0)))).cols = 10 ∧
    (canvasResize 100 80 1 (canvasResize 80 80 1
        (initState densityEightConfig 100 80 1 false (fun _ => 0)))).colors =
      (initState densityEightConfig 100 80 1 false (fun _ => 0)).colors := by
  refine ⟨?_, ?_, ?_, ?_, ?_, ?_⟩ <;>
    simp [initState, colorsInitState, checkDarkTheme, canvasResize, densityEightConfig,
      defaultConfig, colorsInit] <;>
    norm_num <;>
    rfl

/-- Shared helper: `Utils.random()` always lies in `[0, 1)`. -/
theorem jsRandom_mem_Ico (u : ℕ) : jsRandom u ∈ Set.Ico (0 : ℚ) 1 := by
  unfold jsRandom
  constructor
  · apply div_nonneg
    · exact_mod_cast Nat.zero_le _
    · positivity
  · rw [div_lt_one (by positivity)]
    exact_mod_cast Nat.mod_lt u (by norm_num)

/-- Shared helper: for a nonempty palette, the index drawn by `colorsInit` is
always strictly below the palette length. -/
theorem randomIndex_toNat_lt (u len : ℕ) (hlen : 0 < len) :
    (randomIndex u len).toNat < len := by
  obtain ⟨h0, h1⟩ := jsRandom_mem_Ico u
  have hlen' : (0 : ℚ) < (len : ℚ) := by exact_mod_cast hlen
  have hmul0 : (0 : ℚ) ≤ jsRandom u * len := mul_nonneg h0 (le_of_lt hlen')
  have hmul1 : jsRandom u * len < len := by
    have h := mul_lt_mul_of_pos_right h1 hlen'
    rwa [one_mul] at h
  have hf0 : 0 ≤ randomIndex u len := Int.floor_nonneg.mpr hmul0
  have hf1 : randomIndex u len < (len : ℤ) := by
    unfold randomIndex
    rw [Int.floor_lt]
    push_cast
    exact hmul1
  omega

/-- Claim C10: `Utils.random()` always returns a value in `[0, 1)`, so for a
nonempty palette the floor index is in range and every entry written by
`colorsInit` is an element of the palette (no out-of-bounds lookup). -/
theorem colors_from_palette (palette : List String) (cols rows : ℕ) (rnd : ℕ → ℕ)
    (hpal : palette ≠ []) :
    (∀ u : ℕ, jsRandom u ∈ Set.Ico (0 : ℚ) 1) ∧
    ∀ row ∈ colorsInit palette cols rows rnd, ∀ c ∈ row, c ∈ palette := by
  refine ⟨jsRandom_mem_Ico, ?_⟩
  intro row hrow c hc
  simp only [colorsInit, List.mem_map, List.mem_range] at hrow
  obtain ⟨i, hi, rfl⟩ := hrow
  simp only [List.mem_map, List.mem_range] at hc
  obtain ⟨j, hj, rfl⟩ := hc
  have hlen : 0 < palette.length := List.length_pos.mpr hpal
  have hidx := randomIndex_toNat_lt (rnd (i * rows + j)) palette.length hlen
  rw [List.getD_eq_getElem palette "" hidx]
  exact List.getElem_mem hidx

/-- Witness for C10 with the default palette, a 2×2 grid, and the constant
random stream. -/
theorem colors_from_palette_witness :
    (defaultConfig.palette ≠ []) ∧
    ((∀ u : ℕ, jsRandom u ∈ Set.Ico (0 : ℚ) 1) ∧
      ∀ row ∈ colorsInit defaultConfig.palette 2 2 (fun _ => 0), ∀ c ∈ row,
        c ∈ defaultConfig.palette) :=
  ⟨by decide, colors_from_palette defaultConfig.palette 2 2 (fun _ => 0) (by decide)⟩

/-- Claim C5: for every viewport and positive density and pixel ratio, resize
recomputation yields `tileEdge = min(vw, vh) / density / pixelRatio`,
`rows/cols` as ceilings (so the grid covers the whole viewport with no
unpainted margin), the centers `vw/pixelRatio/2`, `vh/pixelRatio/2`, and
`maxDistance = sqrt((vw/pixelRatio/2)^2 + (vh/pixelRatio/2)^2)` — where the
viewport dimensions `vw = w * ratio`, `vh = h * ratio` are in raw device
pixels. -/
theorem computeGeometry_spec (w h ratio density : ℚ) (s : SwirlState)
    (hd : s.density = density) (hw : 0 < w) (hh : 0 < h) (hratio : 0 < ratio)
    (hdens : 0 < density) :
    (canvasResize w h ratio s).size = min (w * ratio) (h * ratio) / density / ratio ∧
    (canvasResize w h ratio s).rows =
      ⌈h * ratio / (canvasResize w h ratio s).size / ratio⌉ ∧
    (canvasResize w h ratio s).cols =
      ⌈w * ratio / (canvasResize w h ratio s).size / ratio⌉ ∧
    centerXOf (canvasResize w h ratio s) ratio = w * ratio / ratio / 2 ∧
    centerYOf (canvasResize w h ratio s) ratio = h * ratio / ratio / 2 ∧
    stateDistanceMax (canvasResize w h ratio s) =
      Real.sqrt (((w * ratio / ratio / 2 : ℚ) : ℝ) ^ 2 +
        ((h * ratio / ratio / 2 : ℚ) : ℝ) ^ 2) ∧
    h * ratio ≤ ((canvasResize w h ratio s).rows : ℚ) * (canvasResize w h ratio s).size * ratio ∧
    w * ratio ≤ ((canvasResize w h ratio s).cols : ℚ) * (canvasResize w h ratio s).size * ratio := by
  have hsz : (canvasResize w h ratio s).size = min (w * ratio) (h * ratio) / s.density / ratio :=
    rfl
  have hmin : 0 < min (w * ratio) (h * ratio) :=
    lt_min (by positivity) (by positivity)
  have hspos : 0 < (canvasResize w h ratio s).size := by
    rw [hsz, hd]
    exact div_pos (div_pos hmin hdens) hratio
  refine ⟨by rw [hsz, hd], rfl, rfl, rfl, rfl, ?_, ?_, ?_⟩
  · unfold stateDistanceMax
    show Real.sqrt (((w * ratio / 2 / ratio) ^ 2 + (h * ratio / 2 / ratio) ^ 2 : ℚ) : ℝ) = _
    congr 1
    push_cast
    ring
  · have hceil : (h * ratio / (canvasResize w h ratio s).size / ratio : ℚ) ≤
        ((⌈h * ratio / (canvasResize w h ratio s).size / ratio⌉ : ℤ) : ℚ) := Int.le_ceil _
    have hrows : ((canvasResize w h ratio s).rows : ℚ) =
        ((⌈h * ratio / (canvasResize w h ratio s).size / ratio⌉ : ℤ) : ℚ) := rfl
    rw [hrows]
    have hbase : h * ratio =
        h * ratio / (canvasResize w h ratio s).size / ratio *
          ((canvasResize w h ratio s).size * ratio) := by
      field_simp
    calc h * ratio = h * ratio / (canvasResize w h ratio s).size / ratio *
          ((canvasResize w h ratio s).size * ratio) := hbase
      _ ≤ ((⌈h * ratio / (canvasResize w h ratio s).size / ratio⌉ : ℤ) : ℚ) *
          ((canvasResize w h ratio s).size * ratio) := by
          apply mul_le_mul_of_nonneg_right hceil
          positivity
      _ = ((⌈h * ratio / (canvasResize w h ratio s).size / ratio⌉ : ℤ) : ℚ) *
          (canvasResize w h ratio s).size * ratio := by ring
  · have hceil : (w * ratio / (canvasResize w h ratio s).size / ratio : ℚ) ≤
        ((⌈w * ratio / (canvasResize w h ratio s).size / ratio⌉ : ℤ) : ℚ) := Int.le_ceil _
    have hcols : ((canvasResize w h ratio s).cols : ℚ) =
        ((⌈w * ratio / (canvasResize w h ratio s).size / ratio⌉ : ℤ) : ℚ) := rfl
    rw [hcols]
    have hbase : w * ratio =
        w * ratio / (canvasResize w h ratio s).size / ratio *
          ((canvasResize w h ratio s).size * ratio) := by
      field_simp
    calc w * ratio = w * ratio / (canvasResize w h ratio s).size / ratio *
          ((canvasResize w h ratio s).size * ratio) := hbase
      _ ≤ ((⌈w * ratio / (canvasResize w h ratio s).size / ratio⌉ : ℤ) : ℚ) *
          ((canvasResize w h ratio s).size * ratio) := by
          apply mul_le_mul_of_nonneg_right hceil
          positivity
      _ = ((⌈w * ratio / (canvasResize w h ratio s).size / ratio⌉ : ℤ) : ℚ) *
          (canvasResize w h ratio s).size * ratio := by ring

/-- Fresh pre-resize state used as a concrete witness input (fields as in the
class before the constructor calls `canvasResize`). -/
def witnessState : SwirlState :=
  { density := 32
    edge := 1 / 10
    ripple := 5
    speed := 3 / 100
    tightness := 3
    palette := []
    canvasW := 0
    canvasH := 0
    size := 0
    rows := 0
    cols := 0
    time := 0
    distanceMaxSq := 0
    isDark := false
    colors := [] }

/-- Witness for C5 at viewport 800×600, pixel ratio 1, density 32. -/
theorem computeGeometry_spec_witness :
    (witnessState.density = 32 ∧ (0 : ℚ) < 800 ∧ (0 : ℚ) < 600 ∧ (0 : ℚ) < 1 ∧
      (0 : ℚ) < 32) ∧
    ((canvasResize 800 600 1 witnessState).size = min (800 * 1) (600 * 1) / 32 / 1 ∧
      (canvasResize 800 600 1 witnessState).rows =
        ⌈600 * 1 / (canvasResize 800 600 1 witnessState).size / 1⌉ ∧
      (canvasResize 800 600 1 witnessState).cols =
        ⌈800 * 1 / (canvasResize 800 600 1 witnessState).size / 1⌉ ∧
      centerXOf (canvasResize 800 600 1 witnessState) 1 = 800 * 1 / 1 / 2 ∧
      centerYOf (canvasResize 800 600 1 witnessState) 1 = 600 * 1 / 1 / 2 ∧
      stateDistanceMax (canvasResize 800 600 1 witnessState) =
        Real.sqrt (((800 * 1 / 1 / 2 : ℚ) : ℝ) ^ 2 + ((600 * 1 / 1 / 2 : ℚ) : ℝ) ^ 2) ∧
      600 * 1 ≤ ((canvasResize 800 600 1 witnessState).rows : ℚ) *
        (canvasResize 800 600 1 witnessState).size * 1 ∧
      800 * 1 ≤ ((canvasResize 800 600 1 witnessState).cols : ℚ) *
        (canvasResize 800 600 1 witnessState).size * 1) :=
  ⟨⟨rfl, by norm_num, by norm_num, by norm_num, by norm_num⟩,
    computeGeometry_spec 800 600 1 32 witnessState rfl (by norm_num) (by norm_num)
      (by norm_num) (by norm_num)⟩

/-- JavaScript number with the IEEE special values relevant to the resize
computation: a finite value, the two infinities, and NaN. -/
inductive JSNum where
  | fin (q : ℚ)
  | posInf
  | negInf
  | nan
deriving DecidableEq

/-- JavaScript division, including `x / 0 = ±Infinity` for `x ≠ 0` (the
rational `0` models JavaScript `+0`), `0 / 0 = NaN`, and `x / ±Infinity = 0`. -/
def JSNum.div : JSNum → JSNum → JSNum
  | .fin a, .fin b =>
    if b ≠ 0 then .fin (a / b)
    else if 0 < a then .posInf
    else if a < 0 then .negInf
    else .nan
  | .fin _, .posInf => .fin 0
  | .fin _, .negInf => .fin 0
  | .fin _, .nan => .nan
  | .posInf, .fin b => if 0 ≤ b then .posInf else .negInf
  | .negInf, .fin b => if 0 ≤ b then .negInf else .posInf
  | _, _ => .nan

/-- JavaScript `Math.min` on two arguments (NaN propagates). -/
def JSNum.minJS : JSNum → JSNum → JSNum
  | .nan, _ => .nan
  | _, .nan => .nan
  | .fin a, .fin b => .fin (min a b)
  | .fin a, .posInf => .fin a
  | .posInf, .fin b => .fin b
  | .fin _, .negInf => .negInf
  | .negInf, .fin _ => .negInf
  | .posInf, .posInf => .posInf
  | .negInf, .negInf => .negInf
  | .posInf, .negInf => .negInf
  | .negInf, .posInf => .negInf

/-- JavaScript `Math.ceil` (infinities and NaN pass through). -/
def JSNum.ceil : JSNum → JSNum
  | .fin q => .fin (⌈q⌉ : ℚ)
  | .posInf => .posInf
  | .negInf => .negInf
  | .nan => .nan

/-- Embedding of the `size`/`rows`/`cols` computation of `canvasResize` under
JavaScript number semantics, for viewport `w × h` (CSS pixels), pixel ratio
`ratio` and the configured `density`; the canvas is first set to raw device
pixels `w * ratio`, `h * ratio` exactly as in the code. -/
def canvasResizeJS (w h ratio density : ℚ) : JSNum × JSNum × JSNum :=
  let canvasW := JSNum.fin (w * ratio)
  let canvasH := JSNum.fin (h * ratio)
  let size := ((canvasW.minJS canvasH).div (JSNum.fin density)).div (JSNum.fin ratio)
  let rows := ((canvasH.div size).div (JSNum.fin ratio)).ceil
  let cols := ((canvasW.div size).div (JSNum.fin ratio)).ceil
  (size, rows, cols)

/-- Counterexample to claim C3 as stated: at viewport 800×600, pixel ratio 1
and `density = 0`, the code raises nothing and does produce geometry — the
tile edge becomes `Infinity` and `rows = cols = 0`, exactly the degenerate
outcome the claim says is prevented. -/
theorem density_zero_cex :
    canvasResizeJS 800 600 1 0 = (JSNum.posInf, JSNum.fin 0, JSNum.fin 0) := by
  norm_num [canvasResizeJS, JSNum.div, JSNum.minJS, JSNum.ceil]

/-- Claim C3 amended: the code performs no configuration validation — for
every positive viewport and pixel ratio, `density = 0` silently yields a tile
edge of `Infinity` and `rows = cols = 0`, with no error raised before (or
instead of) geometry computation. -/
theorem density_zero_no_error (w h ratio : ℚ) (hw : 0 < w) (hh : 0 < h) (hratio : 0 < ratio) :
    canvasResizeJS w h ratio 0 = (JSNum.posInf, JSNum.fin 0, JSNum.fin 0) := by
  have hmpos : 0 < min (w * ratio) (h * ratio) := lt_min (by positivity) (by positivity)
  have hmin : JSNum.minJS (JSNum.fin (w * ratio)) (JSNum.fin (h * ratio)) =
      JSNum.fin (min (w * ratio) (h * ratio)) := rfl
  have h1 : JSNum.div (JSNum.fin (min (w * ratio) (h * ratio))) (JSNum.fin 0) = JSNum.posInf := by
    simp only [JSNum.div]
    rw [if_neg (by norm_num), if_pos hmpos]
  have h2 : JSNum.div JSNum.posInf (JSNum.fin ratio) = JSNum.posInf := by
    simp only [JSNum.div]
    rw [if_pos hratio.le]
  have h3h : JSNum.div (JSNum.fin (h * ratio)) JSNum.posInf = JSNum.fin 0 := rfl
  have h3w : JSNum.div (JSNum.fin (w * ratio)) JSNum.posInf = JSNum.fin 0 := rfl
  have h4 : JSNum.div (JSNum.fin 0) (JSNum.fin ratio) = JSNum.fin 0 := by
    simp only [JSNum.div]
    rw [if_pos hratio.ne']
    norm_num
  have h5 : JSNum.ceil (JSNum.fin 0) = JSNum.fin 0 := by
    simp only [JSNum.ceil]
    norm_num
  simp only [canvasResizeJS]
  rw [hmin, h1, h2, h3h, h3w, h4, h5]

/-- Witness for the amended C3 at viewport 800×600, pixel ratio 1. -/
theorem density_zero_no_error_witness :
    ((0 : ℚ) < 800 ∧ (0 : ℚ) < 600 ∧ (0 : ℚ) < 1) ∧
    canvasResizeJS 800 600 1 0 = (JSNum.posInf, JSNum.fin 0, JSNum.fin 0) :=
  ⟨⟨by norm_num, by norm_num, by norm_num⟩,
    density_zero_no_error 800 600 1 (by norm_num) (by norm_num) (by norm_num)⟩
